import Mathlib

/-!
Shallow embedding of the sliding-window population-genetics engine of
`src/piloto.py` (functions `heterozygosity_expected` .. `process_windows`).

Modelling conventions:
* Python `float` values are modelled by `ℚ`; a value that can be NaN in the
  source (an undefined metric) is modelled by `Option ℚ` with `none` for NaN.
* Python strings (haplotype sequences and window alleles) are `List Char`;
  sample identifiers are `String`.
* Python dicts are association lists in insertion order (Python dicts
  preserve insertion order); `collections.Counter` iteration order is the
  order of first occurrence, modelled by `firstDedup`.
* `scipy.stats.chi2.cdf` is an external library function; it is passed as an
  abstract parameter `cdf : ℚ → ℕ → ℚ` (statistic, degrees of freedom).
* `numpy.random` after `np.random.seed(s)` is a deterministic stream of
  draws; `np.random.choice(positions, 2, replace=False)` draws are modelled
  by an abstract stream `rng : ℕ → ℕ → ℕ × ℕ` (seed, then draw index).
* File output and printing in `process_windows` are I/O side effects outside
  the computation being specified and are not modelled.
-/

namespace Piloto

/-- `max(0.0, min(1.0, x))` / `np.clip(x, 0, 1)` (identical for scalars). -/
def clip (x : ℚ) : ℚ := max 0 (min 1 x)

/-- Distinct elements of a list in order of first occurrence: the key order
of a Python `dict` / `Counter` built by inserting the list elements. -/
def firstDedup {α : Type} [DecidableEq α] : List α → List α
  | [] => []
  | a :: l => a :: firstDedup (l.filter (fun b => decide (b ≠ a)))
termination_by l => l.length
decreasing_by
  simp only [List.length_cons]
  exact Nat.lt_succ_of_le (List.length_filter_le _ _)

/-- Python string comparison `s < t` (lexicographic). -/
def lexLt : List Char → List Char → Bool
  | [], [] => false
  | [], _ :: _ => true
  | _ :: _, [] => false
  | a :: as, b :: bs => if a < b then true else if b < a then false else lexLt as bs

/-- `heterozygosity_expected`: `1 - sum(p*p)` over the frequency table values. -/
def heterozygosity_expected (freqs : List (List Char × ℚ)) : ℚ :=
  1 - ((freqs.map Prod.snd).map (fun p => p * p)).sum

/-- `heterozygosity_observed`: fraction of genotypes with `a1 != a2`;
NaN (`none`) when the genotype list is empty. -/
def heterozygosity_observed (genotypes : List (List Char × List Char)) : Option ℚ :=
  if genotypes.length = 0 then none
  else some ((genotypes.countP (fun g => decide (g.1 ≠ g.2)) : ℚ) / (genotypes.length : ℚ))

/-- `effective_number_of_alleles`: `1/sum(p*p)` when the sum is positive,
NaN (`none`) otherwise. -/
def effective_number_of_alleles (freqs : List (List Char × ℚ)) : Option ℚ :=
  let s := ((freqs.map Prod.snd).map (fun p => p * p)).sum
  if 0 < s then some (1 / s) else none

/-- `num_alleles = len(freqs)` (line 293 of the source). -/
def num_alleles (freqs : List (List Char × ℚ)) : ℕ := freqs.length

/-- The double sum `sum(2*(ps[i]**2)*(ps[j]**2) for i for j in range(i+1, ...))`
of `pic_from_freqs`. -/
def pic_pair_terms : List ℚ → ℚ
  | [] => 0
  | p :: rest => (rest.map (fun q => 2 * (p ^ 2) * (q ^ 2))).sum + pic_pair_terms rest

/-- `pic_from_freqs`: `1 - s1 - s2`. -/
def pic_from_freqs (freqs : List (List Char × ℚ)) : ℚ :=
  let ps := freqs.map Prod.snd
  1 - (ps.map (fun p => p * p)).sum - pic_pair_terms ps

/-- Dict access `freqs[a]` (in the source every key looked up is present;
the `getD 0` default is never used there). -/
def freqOf (freqs : List (List Char × ℚ)) (a : List Char) : ℚ := (freqs.lookup a).getD 0

/-- Inner construction of `genotype_frequencies_under_hwe`: for each allele
`a` (in sorted order), the homozygote row `(a,a)` with frequency `p_a^2`,
then the heterozygote rows `(a,b)` with `2*p_a*p_b` for each later `b`. -/
def hwe_rows (freqs : List (List Char × ℚ)) : List (List Char) → List ((List Char × List Char) × ℚ)
  | [] => []
  | a :: rest =>
    ((a, a), freqOf freqs a * freqOf freqs a) ::
      (rest.map (fun b => ((a, b), 2 * freqOf freqs a * freqOf freqs b)) ++ hwe_rows freqs rest)

/-- `genotype_frequencies_under_hwe`: HWE genotype frequencies over
`sorted(freqs.keys())`. -/
def genotype_frequencies_under_hwe (freqs : List (List Char × ℚ)) :
    List ((List Char × List Char) × ℚ) :=
  hwe_rows freqs ((freqs.map Prod.fst).mergeSort (fun a b => ! lexLt b a))

/-- `match_probability_from_freqs`: `sum(v*v)` over the HWE genotype
frequency table values. -/
def match_probability_from_freqs (freqs : List (List Char × ℚ)) : ℚ :=
  (((genotype_frequencies_under_hwe freqs).map Prod.snd).map (fun v => v * v)).sum

/-- `probability_all_different`: `0` when `m` exceeds the number of alleles,
otherwise `factorial(m)` times the sum over `m`-combinations of alleles of
the product of their frequencies. -/
def probability_all_different (freqs : List (List Char × ℚ)) (m : ℕ) : ℚ :=
  if freqs.length < m then 0
  else (Nat.factorial m : ℚ) * ((List.sublistsLen m freqs).map (fun c => (c.map Prod.snd).prod)).sum

/-- The genotype canonicalisation of `hardy_weinberg_p`:
`(a,a) if a==b else tuple(sorted((a,b)))`. -/
def canonical_genotype (g : List Char × List Char) : List Char × List Char :=
  if lexLt g.2 g.1 then (g.2, g.1) else g

/-- The canonicalised genotype list whose `Counter` is `geno_obs`. -/
def canonList (genotypes : List (List Char × List Char)) : List (List Char × List Char) :=
  genotypes.map canonical_genotype

/-- Python tuple comparison `(a1,a2) <= (b1,b2)` for string pairs, used by
`sorted` over the union of genotype keys. -/
def pairLe (x y : List Char × List Char) : Bool :=
  lexLt x.1 y.1 || (decide (x.1 = y.1) && (lexLt x.2 y.2 || decide (x.2 = y.2)))

/-- The union `set(geno_obs.keys()) | set(geno_exp_freq.keys())` of
`hardy_weinberg_p`, as a duplicate-free list (order fixed by the later sort). -/
def hwUnion (genotypes : List (List Char × List Char)) (freqs : List (List Char × ℚ)) :
    List (List Char × List Char) :=
  firstDedup (canonList genotypes ++ (genotype_frequencies_under_hwe freqs).map Prod.fst)

/-- Expected count `geno_exp_freq.get(k, 0) * n` of `hardy_weinberg_p`. -/
def hwExpected (freqs : List (List Char × ℚ)) (n : ℚ) (g : List Char × List Char) : ℚ :=
  ((genotype_frequencies_under_hwe freqs).lookup g).getD 0 * n

/-- Observed count `geno_obs.get(k, 0)` of `hardy_weinberg_p`. -/
def hwObserved (genotypes : List (List Char × List Char)) (g : List Char × List Char) : ℕ :=
  (canonList genotypes).count g

/-- `hardy_weinberg_p`: chi-square goodness-of-fit p-value against HWE
genotype frequencies. `n = sum(geno_obs.values())`; classes with zero
expected count are masked out; `df = (number of masked-in classes) - k`
with `k = len(freqs)`; NaN (`none`) when `n == 0`, when no class survives
the mask, or when `df <= 0`; otherwise `1 - cdf(chi2_stat, df)` clipped
to `[0,1]`. -/
def hardy_weinberg_p (cdf : ℚ → ℕ → ℚ) (genotypes : List (List Char × List Char))
    (freqs : List (List Char × ℚ)) : Option ℚ :=
  let nn : ℕ := ((firstDedup (canonList genotypes)).map (fun g => (canonList genotypes).count g)).sum
  if nn = 0 then none
  else
    let n : ℚ := (nn : ℚ)
    let keys := (hwUnion genotypes freqs).mergeSort pairLe
    let included := keys.filter (fun g => decide (0 < hwExpected freqs n g))
    if included = [] then none
    else
      let df : ℤ := (included.length : ℤ) - (freqs.length : ℤ)
      if df ≤ 0 then none
      else
        let stat := (included.map
          (fun g => ((hwObserved genotypes g : ℚ) - hwExpected freqs n g) ^ 2
            / hwExpected freqs n g)).sum
        some (clip (1 - cdf stat df.toNat))

/-- Modelled from the spec (section 4.4, Hardy-Weinberg conformance): build
observed unordered-genotype counts from the genotype list; expected counts =
HWE genotype frequency times sample count; exclude genotype classes with zero
expected count; degrees of freedom = (number of included classes) - (number
of distinct alleles, i.e. the frequency-table size per the section 3
invariant); if df <= 0 the result is undefined; otherwise the p-value is
`1 - CDF_chi2(chi2, df)` clipped to `[0,1]`. -/
def hardy_weinberg_p_spec (cdf : ℚ → ℕ → ℚ) (genotypes : List (List Char × List Char))
    (freqs : List (List Char × ℚ)) : Option ℚ :=
  let n : ℚ := (genotypes.length : ℚ)
  let classes := (hwUnion genotypes freqs).filter (fun g => decide (0 < hwExpected freqs n g))
  let df : ℤ := (classes.length : ℤ) - (freqs.length : ℤ)
  if df ≤ 0 then none
  else
    let stat := (classes.map
      (fun g => ((hwObserved genotypes g : ℚ) - hwExpected freqs n g) ^ 2
        / hwExpected freqs n g)).sum
    some (clip (1 - cdf stat df.toNat))

/-- `hardy_weinberg_exact`: two-category (homozygote vs heterozygote)
chi-square test with 1 degree of freedom; NaN (`none`) when the genotype
list is empty or either expected count is not positive. -/
def hardy_weinberg_exact (cdf : ℚ → ℕ → ℚ) (genotypes : List (List Char × List Char))
    (freqs : List (List Char × ℚ)) : Option ℚ :=
  if genotypes = [] then none
  else
    let n : ℚ := (genotypes.length : ℚ)
    let homo_obs : ℚ := (genotypes.countP (fun g => decide (g.1 = g.2)) : ℕ)
    let hetero_obs := n - homo_obs
    let He := heterozygosity_expected freqs
    let hetero_exp := He * n
    let homo_exp := n - hetero_exp
    if 0 < homo_exp ∧ 0 < hetero_exp then
      some (clip (1 - cdf ((homo_obs - homo_exp) ^ 2 / homo_exp
        + (hetero_obs - hetero_exp) ^ 2 / hetero_exp) 1))
    else none

/-- `inbreeding_coefficient`: `0` when `He == 0`, otherwise `(He - Ho)/He`
(NaN when `Ho` is NaN). -/
def inbreeding_coefficient (genotypes : List (List Char × List Char))
    (freqs : List (List Char × ℚ)) : Option ℚ :=
  let He := heterozygosity_expected freqs
  if He = 0 then some 0
  else (heterozygosity_observed genotypes).map (fun Ho => (He - Ho) / He)

/-- The `r2`, `D_prime`, `D` triple returned by
`calculate_linkage_disequilibrium` (all three are NaN together, so the NaN
case is the `none` of an `Option LDResult`). -/
structure LDResult where
  r2 : ℚ
  D_prime : ℚ
  D : ℚ
deriving DecidableEq

/-- A `Counter` of the list elements as `(key, count)` pairs in first
occurrence (insertion) order. -/
def countPairs {α : Type} [DecidableEq α] (l : List α) : List (α × ℕ) :=
  (firstDedup l).map (fun a => (a, l.count a))

/-- `Counter(...).most_common(...)`: counts sorted by count descending; the
CPython implementation is stable, leaving tied keys in insertion order. -/
def mostCommon {α : Type} [DecidableEq α] (l : List α) : List (α × ℕ) :=
  (countPairs l).mergeSort (fun x y => decide (y.2 ≤ x.2))

/-- `max(values, key=abs)`: the first element of maximal absolute value
(`acc` replaced only by a strictly larger key). -/
def maxByAbs (d : ℚ) : List ℚ → ℚ
  | [] => d
  | x :: rest => if |d| < |x| then maxByAbs x rest else maxByAbs d rest

/-- `hap[pos]`. Out-of-range access would raise IndexError in the source;
the source only guards `pos` against the first haplotype's length, and all
its call sites pass equal-length window slices. -/
def baseAt (pos : ℕ) (h : List Char) : Char := h.getD pos ' '

/-- `calculate_linkage_disequilibrium`: two-locus LD between positions
`pos1`, `pos2` after reducing each position to its two most frequent bases.
`none` models the NaN result for out-of-range positions; the empty-pool case
would raise IndexError at `haplotypes[0]` in the source (its `n == 0` check
is dead code) and is likewise modelled as `none`; every caller guards it. -/
def calculate_linkage_disequilibrium (haplotypes : List (List Char)) (pos1 pos2 : ℕ) :
    Option LDResult :=
  match haplotypes with
  | [] => none
  | h0 :: _ =>
  if h0.length ≤ pos1 ∨ h0.length ≤ pos2 then none
  else
    let n : ℚ := (haplotypes.length : ℚ)
    let b1 := haplotypes.map (baseAt pos1)
    let b2 := haplotypes.map (baseAt pos2)
    if (countPairs b1).length = 1 ∨ (countPairs b2).length = 1 then some ⟨0, 0, 0⟩
    else
      match (mostCommon b1).take 2, (mostCommon b2).take 2 with
      | [(a1, ca1), (a2, ca2)], [(bb1, cb1), (bb2, cb2)] =>
        let pa1 : ℚ := (ca1 : ℚ) / n
        let pa2 : ℚ := (ca2 : ℚ) / n
        let pb1 : ℚ := (cb1 : ℚ) / n
        let pb2 : ℚ := (cb2 : ℚ) / n
        let hpairs := haplotypes.map (fun h => (baseAt pos1 h, baseAt pos2 h))
        let pab11 : ℚ := (hpairs.count (a1, bb1) : ℚ) / n
        let pab12 : ℚ := (hpairs.count (a1, bb2) : ℚ) / n
        let pab21 : ℚ := (hpairs.count (a2, bb1) : ℚ) / n
        let pab22 : ℚ := (hpairs.count (a2, bb2) : ℚ) / n
        let v11 := pab11 - pa1 * pb1
        let v12 := pab12 - pa1 * pb2
        let v21 := pab21 - pa2 * pb1
        let v22 := pab22 - pa2 * pb2
        let D := maxByAbs v11 [v12, v21, v22]
        let Dmax :=
          if 0 ≤ D then
            (if D = v11 ∨ D = v22 then min (pa1 * pb1) (pa2 * pb2)
             else min (pa1 * pb2) (pa2 * pb1))
          else
            (if D = v11 ∨ D = v22 then max (-(pa1 * pb1)) (-(pa2 * pb2))
             else max (-(pa1 * pb2)) (-(pa2 * pb1)))
        let Dp := if Dmax ≠ 0 then |D| / |Dmax| else 0
        let denom := pa1 * pa2 * pb1 * pb2
        let r2 := if 0 < denom then D * D / denom else 0
        some ⟨clip r2, clip Dp, D⟩
      | _, _ => some ⟨0, 0, 0⟩

/-- The pair of mean fields returned by `calculate_mean_ld_in_window`
(`none` for NaN, per field). -/
structure LDMeans where
  r2_mean : Option ℚ
  D_prime_mean : Option ℚ
deriving DecidableEq

/-- The bounded-sampling branch of `calculate_mean_ld_in_window`:
`min(sample_pairs, C(npos,2))` draws from the seeded numpy stream, each
reduced to `(min, max)`, then `list(set(pairs))`. The Python set's iteration
order is immaterial downstream (only arithmetic means of the per-pair
results are used), so the set is modelled by first-occurrence dedup. -/
def ld_sampled_pairs (stream : ℕ → ℕ × ℕ) (npos sample_pairs : ℕ) : List (ℕ × ℕ) :=
  firstDedup ((List.range (min sample_pairs (npos * (npos - 1) / 2))).map
    (fun t => (min (stream t).1 (stream t).2, max (stream t).1 (stream t).2)))

/-- The exhaustive branch: `[(i,j) for i in range(npos) for j in range(i+1, npos)]`. -/
def ld_exhaustive_pairs (npos : ℕ) : List (ℕ × ℕ) :=
  (List.range npos).flatMap (fun i => (List.range' (i + 1) (npos - (i + 1))).map (fun j => (i, j)))

/-- `calculate_mean_ld_in_window`: mean `r2` and `D_prime` over the evaluated
position pairs (sampled when the window holds more than 10 positions,
exhaustive otherwise); NaN (`none`) when no valid pair was evaluated. -/
def calculate_mean_ld_in_window (stream : ℕ → ℕ × ℕ) (haplotypes : List (List Char))
    (window_size sample_pairs : ℕ) : LDMeans :=
  if haplotypes = [] ∨ window_size < 2 then ⟨none, none⟩
  else
    let pairs := if 10 < window_size then ld_sampled_pairs stream window_size sample_pairs
      else ld_exhaustive_pairs window_size
    if pairs = [] then ⟨none, none⟩
    else
      let r2_values := pairs.filterMap
        (fun p => (calculate_linkage_disequilibrium haplotypes p.1 p.2).map LDResult.r2)
      let d_prime_values := pairs.filterMap
        (fun p => (calculate_linkage_disequilibrium haplotypes p.1 p.2).map LDResult.D_prime)
      ⟨if r2_values = [] then none else some (r2_values.sum / (r2_values.length : ℚ)),
       if d_prime_values = [] then none
       else some (d_prime_values.sum / (d_prime_values.length : ℚ))⟩

/-- Per combination of `n` samples of `allele_diversity_combinations`, the
number of distinct alleles among the group's `2n` haplotypes (the writing of
combinations to a temporary file and reading them back is a memory-bound
detour with no computational effect and is not modelled). -/
def diversityCounts (genotypes_dict : List (String × (List Char × List Char))) (n : ℕ) :
    List ℕ :=
  (genotypes_dict.sublistsLen n).map
    (fun combo => (firstDedup (combo.flatMap (fun e => [e.2.1, e.2.2]))).length)

/-- `allele_diversity_combinations`: the empty dict when the cohort holds
fewer than `n_individuals` samples; otherwise the fraction of combinations
with each observed distinct-allele count, with every key `1 .. 2*n` not yet
present filled with probability 0. The Python key `diff_i` is modelled by the
integer `i`. -/
def allele_diversity_combinations (genotypes_dict : List (String × (List Char × List Char)))
    (n_individuals : ℕ) : List (ℕ × ℚ) :=
  if genotypes_dict.length < n_individuals then []
  else
    let counts := diversityCounts genotypes_dict n_individuals
    let total := counts.length
    if total = 0 then []
    else
      (firstDedup counts).map (fun i => (i, (counts.count i : ℚ) / (total : ℚ)))
        ++ ((List.range' 1 (2 * n_individuals)).filter
             (fun i => decide (¬ i ∈ counts))).map (fun i => (i, (0 : ℚ)))

/-- The Python slice `s[start:stop]`. -/
def pySlice (s : List Char) (start stop : ℕ) : List Char := (s.drop start).take (stop - start)

/-- The per-window genotype dict: `genotypes[s] = (h1[start:end], h2[start:end])`
in sample insertion order. -/
def windowGenotypes (samples : List (String × List Char × List Char)) (window_size start : ℕ) :
    List (String × (List Char × List Char)) :=
  samples.map (fun s => (s.1, (pySlice s.2.1 start (start + window_size),
    pySlice s.2.2 start (start + window_size))))

/-- The per-window pooled allele / haplotype list (`alleles_pool` and
`haplotypes` are built identically: both alleles of each sample in sample
insertion order). -/
def windowPool (samples : List (String × List Char × List Char)) (window_size start : ℕ) :
    List (List Char) :=
  samples.flatMap (fun s => [pySlice s.2.1 start (start + window_size),
    pySlice s.2.2 start (start + window_size)])

/-- The per-window allele frequency dict:
`{a: allele_counter[a]/total for a in allele_counter}` with
`total = sum(allele_counter.values())`, keys in first-occurrence order. -/
def windowFreqs (samples : List (String × List Char × List Char)) (window_size start : ℕ) :
    List (List Char × ℚ) :=
  let pool := windowPool samples window_size start
  let total : ℕ := ((firstDedup pool).map (fun a => pool.count a)).sum
  (firstDedup pool).map (fun a => (a, (pool.count a : ℚ) / (total : ℚ)))

/-- `enumerate` over the frequency-dict keys, labelling the i-th key `A(i+1)`. -/
def alleleLabels : ℕ → List (List Char) → List (List Char × String)
  | _, [] => []
  | i, a :: rest => (a, "A" ++ toString (i + 1)) :: alleleLabels (i + 1) rest

/-- The display relabeling `mapping = {allele: f"A{i+1}" for i, allele in
enumerate(freqs.keys())}` of `process_windows`. -/
def windowMapping (samples : List (String × List Char × List Char)) (window_size start : ℕ) :
    List (List Char × String) :=
  alleleLabels 0 ((windowFreqs samples window_size start).map Prod.fst)

/-- The score block of `process_windows` (lines 330-339): the metrics dict
(with `Ho`, `Ae/10`, `r2_mean`, `D_prime_mean` entries dropped when NaN and
NaN `r2_mean`/`D_prime_mean` first replaced by 0), each value clipped to
`[0,1]`; then the mean of the nine listed terms. A missing `He`/`Ho`/`Ae`/
`PIC`/`PD` key would raise KeyError in the source; that case is modelled as
`none` and proved unreachable for a nonempty cohort. -/
def score_of (He : ℚ) (Ho : Option ℚ) (Ae : Option ℚ) (PIC PD p2 p3 p4 : ℚ)
    (r2m dpm : Option ℚ) : Option ℚ :=
  let raw : List (String × Option ℚ) :=
    [("He", some He), ("Ho", Ho),
     ("Ae", Ae.map (fun a => if a = 0 then 0 else a / 10)),
     ("PIC", some PIC), ("PD", some PD),
     ("prob_2_diff", some p2), ("prob_3_diff", some p3), ("prob_4_diff", some p4),
     ("r2_mean", some (r2m.getD 0)), ("D_prime_mean", some (dpm.getD 0))]
  let metrics : List (String × ℚ) := raw.filterMap (fun kv => kv.2.map (fun v => (kv.1, clip v)))
  let ld_penalty := 1 - ((metrics.lookup "r2_mean").getD 0)
  match metrics.lookup "He", metrics.lookup "Ho", metrics.lookup "Ae",
      metrics.lookup "PIC", metrics.lookup "PD" with
  | some he, some ho, some ae, some pic, some pd =>
    some ((he + ho + ae + pic + pd
      + (1 / 2) * ((metrics.lookup "prob_2_diff").getD 0)
      + (3 / 4) * ((metrics.lookup "prob_3_diff").getD 0)
      + ((metrics.lookup "prob_4_diff").getD 0)
      + (3 / 10) * ld_penalty) / 9)
  | _, _, _, _, _ => none

/-- One row of the result table of `process_windows` (the redundant
`alleles_freqs` display string is pure formatting of `mapping`/`freqs` and
is not modelled). -/
structure WindowResult where
  start : ℕ
  stop : ℕ
  num_alleles : ℕ
  freqs : List (List Char × ℚ)
  mapping : List (List Char × String)
  He : ℚ
  Ho : Option ℚ
  Ae : Option ℚ
  PIC : ℚ
  HWE : Option ℚ
  HWE_simple : Option ℚ
  Fis : Option ℚ
  MP : ℚ
  PD : ℚ
  prob_2_diff : ℚ
  prob_3_diff : ℚ
  prob_4_diff : ℚ
  r2_mean : Option ℚ
  D_prime_mean : Option ℚ
  diversity_2 : List (ℕ × ℚ)
  diversity_3 : List (ℕ × ℚ)
  diversity_4 : List (ℕ × ℚ)
  score : Option ℚ
deriving DecidableEq

/-- The body of the per-window loop of `process_windows`. `np.random.seed(42)`
is executed before the LD step of every window, so the LD sampling stream is
`rng 42` in every window. Reported coordinates are `start+1 .. start+width`. -/
def windowResult (rng : ℕ → ℕ → ℕ × ℕ) (cdf : ℚ → ℕ → ℚ)
    (samples : List (String × List Char × List Char)) (window_size start : ℕ) : WindowResult :=
  let genotypes := windowGenotypes samples window_size start
  let genotype_list := genotypes.map Prod.snd
  let freqs := windowFreqs samples window_size start
  let lds := calculate_mean_ld_in_window (rng 42) (windowPool samples window_size start)
    window_size 20
  { start := start + 1
    stop := start + window_size
    num_alleles := num_alleles freqs
    freqs := freqs
    mapping := windowMapping samples window_size start
    He := heterozygosity_expected freqs
    Ho := heterozygosity_observed genotype_list
    Ae := effective_number_of_alleles freqs
    PIC := pic_from_freqs freqs
    HWE := hardy_weinberg_p cdf genotype_list freqs
    HWE_simple := hardy_weinberg_exact cdf genotype_list freqs
    Fis := inbreeding_coefficient genotype_list freqs
    MP := match_probability_from_freqs freqs
    PD := 1 - match_probability_from_freqs freqs
    prob_2_diff := probability_all_different freqs 2
    prob_3_diff := probability_all_different freqs 3
    prob_4_diff := probability_all_different freqs 4
    r2_mean := lds.r2_mean
    D_prime_mean := lds.D_prime_mean
    diversity_2 := allele_diversity_combinations genotypes 2
    diversity_3 := allele_diversity_combinations genotypes 3
    diversity_4 := allele_diversity_combinations genotypes 4
    score := score_of (heterozygosity_expected freqs) (heterozygosity_observed genotype_list)
      (effective_number_of_alleles freqs) (pic_from_freqs freqs)
      (1 - match_probability_from_freqs freqs) (probability_all_different freqs 2)
      (probability_all_different freqs 3) (probability_all_different freqs 4)
      lds.r2_mean lds.D_prime_mean }

/-- `L = min(min(len(h1), len(h2)) for each sample)` (0 is never used: the
empty cohort is rejected first). -/
def usable_length (samples : List (String × List Char × List Char)) : ℕ :=
  match samples.map (fun s => min s.2.1.length s.2.2.length) with
  | [] => 0
  | x :: xs => xs.foldl Nat.min x

/-- The number of iterations of `for start in range(0, L - window_size + 1)`
(Python int arithmetic: empty when `L < window_size`). -/
def numWindows (L window_size : ℕ) : ℕ := if window_size ≤ L then L - window_size + 1 else 0

/-- The scan loop of `process_windows`: one `WindowResult` per window, in
increasing `start` order (the order in which rows are appended to `results`). -/
def scan_windows (rng : ℕ → ℕ → ℕ × ℕ) (cdf : ℚ → ℕ → ℚ)
    (samples : List (String × List Char × List Char)) (window_size : ℕ) : List WindowResult :=
  (List.range (numWindows (usable_length samples) window_size)).map
    (windowResult rng cdf samples window_size)

/-- How a run of `process_windows` can fail: the explicit
`ValueError("Nenhuma sequência válida encontrada.")` for an empty cohort,
and the KeyError raised by `df.sort_values("Score", ...)` when `results` is
empty (an empty DataFrame has no `Score` column), which happens exactly when
the usable length is shorter than the window. -/
inductive RunError where
  | valueErrorNoSequences : RunError
  | keyErrorScore : RunError
deriving DecidableEq

/-- `process_windows` up to row collection. The final
`df.sort_values("Score", ascending=False)` reorders the rows with
pandas/numpy quicksort (an unstable sort, no tie-break key, NaN placed
last); its tie order is not specified by the libraries, so `.ok` carries
the rows in scan order and ordering facts are stated separately. -/
def process_windows (rng : ℕ → ℕ → ℕ × ℕ) (cdf : ℚ → ℕ → ℚ)
    (samples : List (String × List Char × List Char)) (window_size : ℕ) :
    Except RunError (List WindowResult) :=
  if samples.isEmpty then .error .valueErrorNoSequences
  else
    let results := scan_windows rng cdf samples window_size
    if results.isEmpty then .error .keyErrorScore
    else .ok results

/-! ### Helper lemmas -/

theorem mem_firstDedup {α : Type} [DecidableEq α] (l : List α) (a : α) :
    a ∈ firstDedup l ↔ a ∈ l := by
  induction l using firstDedup.induct with
  | case1 => simp [firstDedup]
  | case2 b l ih =>
    simp only [firstDedup, List.mem_cons, ih, List.mem_filter, decide_eq_true_eq]
    constructor
    · rintro (rfl | ⟨h, _⟩)
      · exact Or.inl rfl
      · exact Or.inr h
    · rintro (rfl | h)
      · exact Or.inl rfl
      · by_cases hab : a = b
        · exact Or.inl hab
        · exact Or.inr ⟨h, hab⟩

theorem firstDedup_ne_nil {α : Type} [DecidableEq α] {l : List α} (h : l ≠ []) :
    firstDedup l ≠ [] := by
  cases l with
  | nil => exact absurd rfl h
  | cons a l => simp [firstDedup]

theorem length_firstDedup_le {α : Type} [DecidableEq α] (l : List α) :
    (firstDedup l).length ≤ l.length := by
  induction l using firstDedup.induct with
  | case1 => simp [firstDedup]
  | case2 b l ih =>
    simp only [firstDedup, List.length_cons]
    exact Nat.succ_le_succ (le_trans ih (List.length_filter_le _ _))

theorem one_le_length_firstDedup {α : Type} [DecidableEq α] {l : List α} (h : l ≠ []) :
    1 ≤ (firstDedup l).length := by
  have := firstDedup_ne_nil h
  cases hfd : firstDedup l with
  | nil => exact absurd hfd this
  | cons a t => simp

theorem sum_count_firstDedup {α : Type} [DecidableEq α] [BEq α] [LawfulBEq α] (l : List α) :
    ((firstDedup l).map (fun a => l.count a)).sum = l.length := by
  induction l using firstDedup.induct with
  | case1 => simp [firstDedup]
  | case2 b l ih =>
    simp only [firstDedup, List.map_cons, List.sum_cons, List.count_cons_self]
    have hmap : (firstDedup (l.filter (fun x => decide (x ≠ b)))).map
        (fun a => (b :: l).count a)
        = (firstDedup (l.filter (fun x => decide (x ≠ b)))).map
          (fun a => (l.filter (fun x => decide (x ≠ b))).count a) := by
      apply List.map_congr_left
      intro a ha
      have hane : a ≠ b := by
        have := (mem_firstDedup _ a).mp ha
        simpa using (List.mem_filter.mp this).2
      rw [List.count_cons_of_ne hane, List.count_filter]
      simp [hane]
    rw [hmap, ih]
    have hsplit : ∀ m : List α, (m.filter (fun x => decide (x ≠ b))).length + m.count b = m.length := by
      intro m
      induction m with
      | nil => simp
      | cons x m ihm =>
        by_cases hx : x = b
        · have hf : (x :: m).filter (fun y => decide (y ≠ b)) = m.filter (fun y => decide (y ≠ b)) := by
            simp [List.filter_cons, hx]
          rw [hf, hx, List.count_cons_self, List.length_cons]
          omega
        · have hf : (x :: m).filter (fun y => decide (y ≠ b)) = x :: m.filter (fun y => decide (y ≠ b)) := by
            simp [List.filter_cons, hx]
          rw [hf, List.count_cons_of_ne (Ne.symm hx), List.length_cons, List.length_cons]
          omega
    have := hsplit l
    simp only [List.length_cons]
    omega

theorem lookup_map_self {α β : Type} [BEq α] [LawfulBEq α] (l : List α) (f : α → β) (a : α)
    (h : a ∈ l) : (l.map (fun x => (x, f x))).lookup a = some (f a) := by
  induction l with
  | nil => simp at h
  | cons b l ih =>
    by_cases hab : a = b
    · subst hab
      simp [List.lookup]
    · have hb : (a == b) = false := beq_eq_false_iff_ne.mpr hab
      have hmem : a ∈ l := by
        rcases List.mem_cons.mp h with h1 | h1
        · exact absurd h1 hab
        · exact h1
      simp only [List.map_cons, List.lookup, hb]
      exact ih hmem

theorem lookup_map_self_none {α β : Type} [BEq α] [LawfulBEq α] (l : List α) (f : α → β) (a : α)
    (h : a ∉ l) : (l.map (fun x => (x, f x))).lookup a = none := by
  induction l with
  | nil => simp [List.lookup]
  | cons b l ih =>
    have hab : a ≠ b := fun hc => h (hc ▸ List.mem_cons_self b l)
    have hb : (a == b) = false := beq_eq_false_iff_ne.mpr hab
    have hl : a ∉ l := fun hc => h (List.mem_cons_of_mem b hc)
    simp only [List.map_cons, List.lookup, hb]
    exact ih hl

theorem lookup_append_some {α β : Type} [BEq α] [LawfulBEq α] {l₁ l₂ : List (α × β)} {a : α}
    {v : β} (h : l₁.lookup a = some v) : (l₁ ++ l₂).lookup a = some v := by
  induction l₁ with
  | nil => simp [List.lookup] at h
  | cons kv l ih =>
    by_cases hk : a = kv.1
    · have hb : (a == kv.1) = true := beq_iff_eq.mpr hk
      simp only [List.lookup, hb] at h
      simp only [List.cons_append, List.lookup, hb]
      exact h
    · have hb : (a == kv.1) = false := beq_eq_false_iff_ne.mpr hk
      simp only [List.lookup, hb] at h
      simp only [List.cons_append, List.lookup, hb]
      exact ih h

theorem lookup_append_none {α β : Type} [BEq α] [LawfulBEq α] {l₁ : List (α × β)} (l₂ : List (α × β))
    {a : α} (h : l₁.lookup a = none) : (l₁ ++ l₂).lookup a = l₂.lookup a := by
  induction l₁ with
  | nil => simp
  | cons kv l ih =>
    by_cases hk : a = kv.1
    · have hb : (a == kv.1) = true := beq_iff_eq.mpr hk
      simp only [List.lookup, hb] at h
      exact absurd h (by simp)
    · have hb : (a == kv.1) = false := beq_eq_false_iff_ne.mpr hk
      simp only [List.lookup, hb] at h
      simp only [List.cons_append, List.lookup, hb]
      exact ih h

theorem list_sum_div {α : Type} (l : List α) (f : α → ℚ) (c : ℚ) :
    (l.map (fun x => f x / c)).sum = (l.map f).sum / c := by
  induction l with
  | nil => simp
  | cons a l ih => simp [ih, add_div]

theorem sum_sub_sq (ps : List ℚ) (c : ℚ) :
    (ps.map (fun p => (p - c) ^ 2)).sum
      = (ps.map (fun p => p * p)).sum - 2 * c * ps.sum + (ps.length : ℚ) * c ^ 2 := by
  induction ps with
  | nil => simp
  | cons p ps ih =>
    simp only [List.map_cons, List.sum_cons, List.length_cons, ih]
    push_cast
    ring

theorem sum_eq_zero_iff_nonneg (l : List ℚ) (h : ∀ x ∈ l, 0 ≤ x) :
    l.sum = 0 ↔ ∀ x ∈ l, x = 0 := by
  induction l with
  | nil => simp
  | cons a l ih =>
    have ha := h a (List.mem_cons_self a l)
    have hl : ∀ x ∈ l, 0 ≤ x := fun x hx => h x (List.mem_cons_of_mem a hx)
    have hsum : 0 ≤ l.sum := List.sum_nonneg hl
    simp only [List.sum_cons, List.mem_cons]
    constructor
    · intro h0
      have ha0 : a = 0 := le_antisymm (by linarith) ha
      have hl0 : l.sum = 0 := by linarith
      intro x hx
      rcases hx with rfl | hx
      · exact ha0
      · exact ((ih hl).mp hl0) x hx
    · intro hall
      have : l.sum = 0 := (ih hl).mpr (fun x hx => hall x (Or.inr hx))
      rw [hall a (Or.inl rfl), this, add_zero]

theorem sq_sum_pos {ps : List ℚ} (hne : ps ≠ []) (hpos : ∀ p ∈ ps, 0 < p) :
    0 < (ps.map (fun p => p * p)).sum := by
  cases ps with
  | nil => exact absurd rfl hne
  | cons p t =>
    have hp := hpos p (List.mem_cons_self p t)
    have h1 : 0 < p * p := mul_pos hp hp
    have h2 : 0 ≤ (t.map (fun q => q * q)).sum := by
      apply List.sum_nonneg
      intro x hx
      obtain ⟨q, _, rfl⟩ := List.mem_map.mp hx
      exact mul_self_nonneg q
    simp only [List.map_cons, List.sum_cons]
    linarith

theorem sq_sum_le_one {ps : List ℚ} (hpos : ∀ p ∈ ps, 0 < p) (hsum : ps.sum = 1) :
    (ps.map (fun p => p * p)).sum ≤ 1 := by
  have hle : ∀ p ∈ ps, p ≤ 1 := by
    intro p hp
    have h1 := List.single_le_sum (fun q hq => le_of_lt (hpos q hq)) p hp
    rw [hsum] at h1
    exact h1
  have h2 : (ps.map (fun p => p * p)).sum ≤ (ps.map id).sum := by
    apply List.sum_le_sum
    intro p hp
    have h1 := (hpos p hp).le
    have h3 := hle p hp
    simp only [id]
    nlinarith
  rw [List.map_id, hsum] at h2
  exact h2

/-- Claim C8: for every frequency table with at least one allele, with all
frequencies positive and summing to 1, `Ae = 1/sum(p*p)` is defined,
`Ae >= 1`, and `Ae = numAlleles` iff all alleles are equiprobable. -/
theorem claim_C8 (freqs : List (List Char × ℚ))
    (hne : freqs ≠ []) (hpos : ∀ p ∈ freqs.map Prod.snd, 0 < p)
    (hsum : (freqs.map Prod.snd).sum = 1) :
    ∃ ae, effective_number_of_alleles freqs = some ae ∧ 1 ≤ ae ∧
      (ae = (num_alleles freqs : ℚ) ↔
        ∀ p ∈ freqs.map Prod.snd, p = 1 / (num_alleles freqs : ℚ)) := by
  have hpsne : freqs.map Prod.snd ≠ [] := by
    intro hc
    exact hne (List.map_eq_nil_iff.mp hc)
  have hS : 0 < ((freqs.map Prod.snd).map (fun p => p * p)).sum := sq_sum_pos hpsne hpos
  have hS1 : ((freqs.map Prod.snd).map (fun p => p * p)).sum ≤ 1 := sq_sum_le_one hpos hsum
  set S := ((freqs.map Prod.snd).map (fun p => p * p)).sum with hSdef
  have hlen : num_alleles freqs = (freqs.map Prod.snd).length := by
    simp [num_alleles]
  have hn0 : 0 < (freqs.map Prod.snd).length := List.length_pos.mpr hpsne
  have hnq : ((freqs.map Prod.snd).length : ℚ) ≠ 0 := by
    exact_mod_cast Nat.pos_iff_ne_zero.mp hn0
  refine ⟨1 / S, ?_, ?_, ?_⟩
  · simp only [effective_number_of_alleles, ← hSdef, if_pos hS]
  · rw [le_div_iff₀ hS]
    linarith
  · have hid : ((freqs.map Prod.snd).map
        (fun p => (p - 1 / ((freqs.map Prod.snd).length : ℚ)) ^ 2)).sum
        = S - 1 / ((freqs.map Prod.snd).length : ℚ) := by
      rw [sum_sub_sq, hsum, ← hSdef]
      have hcl : ((freqs.map Prod.snd).length : ℚ) * (1 / ((freqs.map Prod.snd).length : ℚ)) ^ 2
          = 1 / ((freqs.map Prod.snd).length : ℚ) := by
        rw [one_div, sq, ← mul_assoc, mul_inv_cancel₀ hnq, one_mul]
      rw [hcl]
      ring
    have hnonneg : ∀ x ∈ (freqs.map Prod.snd).map
        (fun p => (p - 1 / ((freqs.map Prod.snd).length : ℚ)) ^ 2), 0 ≤ x := by
      intro x hx
      obtain ⟨q, _, rfl⟩ := List.mem_map.mp hx
      positivity
    have hchain : S = 1 / ((freqs.map Prod.snd).length : ℚ)
        ↔ ∀ p ∈ freqs.map Prod.snd, p = 1 / ((freqs.map Prod.snd).length : ℚ) := by
      constructor
      · intro hSn
        intro p hp
        have hzero : ((freqs.map Prod.snd).map
            (fun p => (p - 1 / ((freqs.map Prod.snd).length : ℚ)) ^ 2)).sum = 0 := by
          rw [hid, hSn, sub_self]
        have hall := (sum_eq_zero_iff_nonneg _ hnonneg).mp hzero
        have hterm := hall _ (List.mem_map_of_mem
          (fun p => (p - 1 / ((freqs.map Prod.snd).length : ℚ)) ^ 2) hp)
        have := pow_eq_zero_iff (n := 2) (by norm_num) |>.mp hterm
        linarith [sub_eq_zero.mp this]
      · intro hall
        have hzero : ((freqs.map Prod.snd).map
            (fun p => (p - 1 / ((freqs.map Prod.snd).length : ℚ)) ^ 2)).sum = 0 := by
          apply List.sum_eq_zero
          intro x hx
          obtain ⟨q, hq, rfl⟩ := List.mem_map.mp hx
          rw [hall q hq, sub_self]
          ring
        rw [hid] at hzero
        linarith
    have hdiv : 1 / S = ((freqs.map Prod.snd).length : ℚ)
        ↔ S = 1 / ((freqs.map Prod.snd).length : ℚ) := by
      rw [div_eq_iff hS.ne', eq_div_iff hnq]
      constructor
      · intro h1
        rw [mul_comm]
        exact h1.symm
      · intro h1
        rw [mul_comm]
        exact h1.symm
    rw [hlen]
    rw [hdiv, hchain]

/-- Witness for C8 at the table with two equiprobable alleles. -/
theorem claim_C8_witness :
    ∃ ae, effective_number_of_alleles [(['A'], (1 : ℚ) / 2), (['T'], (1 : ℚ) / 2)] = some ae
      ∧ 1 ≤ ae ∧
      (ae = (num_alleles [(['A'], (1 : ℚ) / 2), (['T'], (1 : ℚ) / 2)] : ℚ) ↔
        ∀ p ∈ [(['A'], (1 : ℚ) / 2), (['T'], (1 : ℚ) / 2)].map Prod.snd,
          p = 1 / (num_alleles [(['A'], (1 : ℚ) / 2), (['T'], (1 : ℚ) / 2)] : ℚ)) :=
  claim_C8 [(['A'], (1 : ℚ) / 2), (['T'], (1 : ℚ) / 2)] (by simp) (by norm_num) (by norm_num)

/-- Claim C10: for every window over a nonempty cohort, the frequency table
is nonempty, every frequency is strictly positive, and `Ae` is defined
(the NaN branch of `effective_number_of_alleles` is unreachable). -/
theorem claim_C10 (samples : List (String × List Char × List Char)) (window_size start : ℕ)
    (h : samples ≠ []) :
    windowFreqs samples window_size start ≠ []
    ∧ (∀ p ∈ (windowFreqs samples window_size start).map Prod.snd, 0 < p)
    ∧ ∃ ae, effective_number_of_alleles (windowFreqs samples window_size start) = some ae := by
  have hpool : windowPool samples window_size start ≠ [] := by
    cases samples with
    | nil => exact absurd rfl h
    | cons s t => simp [windowPool]
  have hfd := firstDedup_ne_nil hpool
  have htotal : ((firstDedup (windowPool samples window_size start)).map
      (fun a => (windowPool samples window_size start).count a)).sum
      = (windowPool samples window_size start).length := sum_count_firstDedup _
  have hlenpos : 0 < (windowPool samples window_size start).length := List.length_pos.mpr hpool
  have htpos : (0 : ℚ) < (((firstDedup (windowPool samples window_size start)).map
      (fun a => (windowPool samples window_size start).count a)).sum : ℚ) := by
    rw [htotal]
    exact_mod_cast hlenpos
  have hvals : ∀ p ∈ (windowFreqs samples window_size start).map Prod.snd, 0 < p := by
    intro p hp
    simp only [windowFreqs, List.map_map] at hp
    obtain ⟨a, ha, rfl⟩ := List.mem_map.mp hp
    have hmem : a ∈ windowPool samples window_size start := (mem_firstDedup _ a).mp ha
    have hcount : 0 < (windowPool samples window_size start).count a :=
      List.count_pos_iff.mpr hmem
    exact div_pos (by exact_mod_cast hcount) htpos
  have hne : windowFreqs samples window_size start ≠ [] := by
    simp only [windowFreqs]
    intro hc
    exact hfd (List.map_eq_nil_iff.mp hc)
  refine ⟨hne, hvals, ?_⟩
  have hvne : (windowFreqs samples window_size start).map Prod.snd ≠ [] := by
    intro hc
    exact hne (List.map_eq_nil_iff.mp hc)
  have hS := sq_sum_pos hvne hvals
  exact ⟨1 / ((((windowFreqs samples window_size start).map Prod.snd).map (fun p => p * p)).sum),
    by simp only [effective_number_of_alleles, if_pos hS]⟩

/-- Witness for C10 at a one-sample cohort. -/
theorem claim_C10_witness :
    windowFreqs [("s1", ['A'], ['T'])] 1 0 ≠ []
    ∧ (∀ p ∈ (windowFreqs [("s1", ['A'], ['T'])] 1 0).map Prod.snd, 0 < p)
    ∧ ∃ ae, effective_number_of_alleles (windowFreqs [("s1", ['A'], ['T'])] 1 0) = some ae :=
  claim_C10 [("s1", ['A'], ['T'])] 1 0 (by simp)

/-- Claim C2: an empty cohort aborts the run with the dedicated
`ValueError` before any window is processed; a usable length shorter than
the window width aborts it (with zero windows scanned, hence before any
window is processed) through the distinct `KeyError` raised when sorting
the empty result table; in both cases no window result is produced. -/
theorem claim_C2 (rng : ℕ → ℕ → ℕ × ℕ) (cdf : ℚ → ℕ → ℚ)
    (samples : List (String × List Char × List Char)) (window_size : ℕ) :
    (samples = [] →
      process_windows rng cdf samples window_size = .error .valueErrorNoSequences)
    ∧ (samples ≠ [] → usable_length samples < window_size →
      process_windows rng cdf samples window_size = .error .keyErrorScore)
    ∧ RunError.valueErrorNoSequences ≠ RunError.keyErrorScore := by
  refine ⟨?_, ?_, by simp⟩
  · intro h
    subst h
    rfl
  · intro hne hlen
    have hempty : samples.isEmpty = false := by
      cases samples with
      | nil => exact absurd rfl hne
      | cons a t => rfl
    have hnum : numWindows (usable_length samples) window_size = 0 := by
      simp only [numWindows, if_neg (by omega : ¬ window_size ≤ usable_length samples)]
    simp [process_windows, hempty, scan_windows, hnum]

/-- Witness for C2: the empty cohort, and a one-sample cohort of usable
length 1 with window width 2. -/
theorem claim_C2_witness :
    process_windows (fun _ _ => (0, 1)) (fun _ _ => 0) [] 2 = .error .valueErrorNoSequences
    ∧ process_windows (fun _ _ => (0, 1)) (fun _ _ => 0) [("s1", ['A'], ['A'])] 2
      = .error .keyErrorScore :=
  ⟨(claim_C2 (fun _ _ => (0, 1)) (fun _ _ => 0) [] 2).1 rfl,
   (claim_C2 (fun _ _ => (0, 1)) (fun _ _ => 0) [("s1", ['A'], ['A'])] 2).2.1
     (by simp) (by simp [usable_length])⟩

/-- Claim C9: all bounded sampling is driven by the numpy stream seeded
with the hard-coded seed 42 before each window's LD step, so two runs whose
streams agree at seed 42 produce identical outputs — in particular
bit-identical `r2_mean`, `D_prime_mean` and combinatorial-diversity
distributions for every window. -/
theorem claim_C9 (rng₁ rng₂ : ℕ → ℕ → ℕ × ℕ) (cdf : ℚ → ℕ → ℚ)
    (samples : List (String × List Char × List Char)) (window_size : ℕ)
    (h : ∀ i, rng₁ 42 i = rng₂ 42 i) :
    scan_windows rng₁ cdf samples window_size = scan_windows rng₂ cdf samples window_size
    ∧ process_windows rng₁ cdf samples window_size
      = process_windows rng₂ cdf samples window_size := by
  have hfun : rng₁ 42 = rng₂ 42 := funext h
  have hscan : scan_windows rng₁ cdf samples window_size
      = scan_windows rng₂ cdf samples window_size := by
    simp only [scan_windows]
    apply List.map_congr_left
    intro i _
    simp only [windowResult, hfun]
  exact ⟨hscan, by simp only [process_windows, hscan]⟩

/-- Witness for C9: two syntactically distinct streams that agree at seed 42. -/
theorem claim_C9_witness :
    scan_windows (fun _ i => (i, i + 1)) (fun _ _ => 0) [("s1", ['A'], ['T'])] 1
      = scan_windows (fun s i => (s - 42 + i, i + 1)) (fun _ _ => 0) [("s1", ['A'], ['T'])] 1
    ∧ process_windows (fun _ i => (i, i + 1)) (fun _ _ => 0) [("s1", ['A'], ['T'])] 1
      = process_windows (fun s i => (s - 42 + i, i + 1)) (fun _ _ => 0) [("s1", ['A'], ['T'])] 1 :=
  claim_C9 (fun _ i => (i, i + 1)) (fun s i => (s - 42 + i, i + 1)) (fun _ _ => 0)
    [("s1", ['A'], ['T'])] 1 (fun i => by norm_num)

/-- For a nonempty haplotype pool and in-range positions, a position with
fewer than two distinct observed bases makes the LD estimator return the
all-zero triple. -/
theorem ld_single_base_zero (haplotypes : List (List Char)) (pos1 pos2 window_size : ℕ)
    (hne : haplotypes ≠ [])
    (hlen : ∀ h ∈ haplotypes, h.length = window_size)
    (hp1 : pos1 < window_size) (hp2 : pos2 < window_size)
    (hdeg : (countPairs (haplotypes.map (baseAt pos1))).length < 2
      ∨ (countPairs (haplotypes.map (baseAt pos2))).length < 2) :
    calculate_linkage_disequilibrium haplotypes pos1 pos2 = some ⟨0, 0, 0⟩ := by
  cases haplotypes with
  | nil => exact absurd rfl hne
  | cons h0 t =>
    have hl0 : h0.length = window_size := hlen h0 (List.mem_cons_self _ _)
    have hguard : ¬ (h0.length ≤ pos1 ∨ h0.length ≤ pos2) := by omega
    have hb1 : ((h0 :: t).map (baseAt pos1) : List Char) ≠ [] := by simp
    have hb2 : ((h0 :: t).map (baseAt pos2) : List Char) ≠ [] := by simp
    have hc1 : 1 ≤ (countPairs ((h0 :: t).map (baseAt pos1))).length := by
      simp only [countPairs, List.length_map]
      exact one_le_length_firstDedup hb1
    have hc2 : 1 ≤ (countPairs ((h0 :: t).map (baseAt pos2))).length := by
      simp only [countPairs, List.length_map]
      exact one_le_length_firstDedup hb2
    have hone : (countPairs ((h0 :: t).map (baseAt pos1))).length = 1
        ∨ (countPairs ((h0 :: t).map (baseAt pos2))).length = 1 := by
      rcases hdeg with hd | hd
      · exact Or.inl (by omega)
      · exact Or.inr (by omega)
    simp only [calculate_linkage_disequilibrium]
    rw [if_neg hguard, if_pos hone]

/-- Claim C6: for a nonempty haplotype pool and positions inside the window,
a position with fewer than two distinct observed bases makes the LD
estimator return `r2 = D_prime = D = 0` — a defined value, not NaN and not
an exception. -/
theorem claim_C6 (haplotypes : List (List Char)) (pos1 pos2 window_size : ℕ)
    (hne : haplotypes ≠ [])
    (hlen : ∀ h ∈ haplotypes, h.length = window_size)
    (hp1 : pos1 < window_size) (hp2 : pos2 < window_size)
    (hdeg : (countPairs (haplotypes.map (baseAt pos1))).length < 2
      ∨ (countPairs (haplotypes.map (baseAt pos2))).length < 2) :
    calculate_linkage_disequilibrium haplotypes pos1 pos2 = some ⟨0, 0, 0⟩ :=
  ld_single_base_zero haplotypes pos1 pos2 window_size hne hlen hp1 hp2 hdeg

/-- Witness for C6: two haplotypes sharing the base at position 0 and
differing at position 1. -/
theorem claim_C6_witness :
    calculate_linkage_disequilibrium [['A', 'C'], ['A', 'G']] 0 1 = some ⟨0, 0, 0⟩ :=
  claim_C6 [['A', 'C'], ['A', 'G']] 0 1 2 (by simp) (by simp) (by norm_num) (by norm_num)
    (Or.inl (by simp [countPairs, firstDedup, baseAt]))

/-- The frequency-dict keys are exactly the pooled alleles in first
occurrence order. -/
theorem windowFreqs_keys (samples : List (String × List Char × List Char))
    (window_size start : ℕ) :
    (windowFreqs samples window_size start).map Prod.fst
      = firstDedup (windowPool samples window_size start) := by
  simp [windowFreqs, Function.comp_def]

/-- `alleleLabels` is positional: looking up a key returns the label built
from its first-occurrence index. -/
theorem alleleLabels_lookup (l : List (List Char)) (i : ℕ) (a : List Char) (h : a ∈ l) :
    (alleleLabels i l).lookup a = some ("A" ++ toString (i + l.indexOf a + 1)) := by
  induction l generalizing i with
  | nil => simp at h
  | cons b t ih =>
    by_cases hab : a = b
    · subst hab
      have h0 : (a :: t).indexOf a = 0 := by simp [List.indexOf_cons]
      rw [h0]
      simp [alleleLabels, List.lookup]
    · have hb : (a == b) = false := beq_eq_false_iff_ne.mpr hab
      have hb2 : (b == a) = false := beq_eq_false_iff_ne.mpr (Ne.symm hab)
      have hmem : a ∈ t := by
        rcases List.mem_cons.mp h with h1 | h1
        · exact absurd h1 hab
        · exact h1
      have hidx : (b :: t).indexOf a = t.indexOf a + 1 := by
        simp [List.indexOf_cons, hb2]
      rw [hidx]
      simp only [alleleLabels, List.lookup, hb]
      rw [ih (i + 1) hmem]
      have harg : i + 1 + t.indexOf a + 1 = i + (t.indexOf a + 1) + 1 := by omega
      rw [harg]

/-- Modelled from the spec (section 3): the label order places an allele
before another when its frequency is strictly larger, or on equal
frequencies when its string is lexically no larger. -/
def specLabelOrder (x y : List Char × ℚ) : Prop :=
  y.2 < x.2 ∨ (x.2 = y.2 ∧ (lexLt x.1 y.1 = true ∨ x.1 = y.1))

instance : DecidableRel specLabelOrder := fun x y => by
  unfold specLabelOrder
  infer_instance

/-- Modelled from the spec (section 3): display labels `A1, A2, ...`
assigned by descending frequency, ties broken by ascending lexical order of
the allele string. -/
def windowMapping_spec (samples : List (String × List Char × List Char))
    (window_size start : ℕ) : List (List Char × String) :=
  alleleLabels 0
    (((windowFreqs samples window_size start).insertionSort specLabelOrder).map Prod.fst)

/-- Counterexample to C7: over the cohort `s1 = (A, T)`, `s2 = (T, T)` with
window width 1, the code labels allele `A` (frequency 1/4) as `A1` and
allele `T` (frequency 3/4) as `A2`: labels follow first-occurrence order in
the pooled allele list, not descending frequency, so the claimed ordering
(and the spec-modelled mapping) disagree with the code. -/
theorem claim_C7_counterexample :
    windowFreqs [("s1", ['A'], ['T']), ("s2", ['T'], ['T'])] 1 0
      = [(['A'], 1 / 4), (['T'], 3 / 4)]
    ∧ windowMapping [("s1", ['A'], ['T']), ("s2", ['T'], ['T'])] 1 0
      = [(['A'], "A1"), (['T'], "A2")]
    ∧ ((1 : ℚ) / 4 < 3 / 4)
    ∧ windowMapping_spec [("s1", ['A'], ['T']), ("s2", ['T'], ['T'])] 1 0
      = [(['T'], "A1"), (['A'], "A2")] := by
  have hpool : windowPool [("s1", ['A'], ['T']), ("s2", ['T'], ['T'])] 1 0
      = [['A'], ['T'], ['T'], ['T']] := by
    simp [windowPool, pySlice]
  have hfd : firstDedup [(['A'] : List Char), ['T'], ['T'], ['T']] = [['A'], ['T']] := by
    simp [firstDedup]
  have hfreqs : windowFreqs [("s1", ['A'], ['T']), ("s2", ['T'], ['T'])] 1 0
      = [(['A'], 1 / 4), (['T'], 3 / 4)] := by
    simp only [windowFreqs, hpool, hfd]
    simp [List.count_cons]
    norm_num
  have hsort : List.insertionSort specLabelOrder [((['A'] : List Char), (1 : ℚ) / 4),
      (['T'], 3 / 4)] = [(['T'], 3 / 4), (['A'], 1 / 4)] := by
    simp only [List.insertionSort, List.orderedInsert]
    rw [if_neg (by norm_num [specLabelOrder, lexLt])]
  refine ⟨hfreqs, ?_, by norm_num, ?_⟩
  · simp only [windowMapping, hfreqs]
    simp [alleleLabels]
    exact ⟨by decide, by decide⟩
  · simp only [windowMapping_spec, hfreqs, hsort]
    simp [alleleLabels]
    exact ⟨by decide, by decide⟩

/-- Claim C7 (amended): the display label of an allele is `A(i+1)` where `i`
is the index of its first occurrence in the pooled allele list — a function
of pool order, not of the frequency table. -/
theorem claim_C7 (samples : List (String × List Char × List Char)) (window_size start : ℕ)
    (a : List Char) (ha : a ∈ windowPool samples window_size start) :
    (windowMapping samples window_size start).lookup a
      = some ("A" ++ toString
          ((firstDedup (windowPool samples window_size start)).indexOf a + 1)) := by
  have hmem : a ∈ firstDedup (windowPool samples window_size start) :=
    (mem_firstDedup _ a).mpr ha
  have h := alleleLabels_lookup (firstDedup (windowPool samples window_size start)) 0 a hmem
  rw [Nat.zero_add] at h
  rw [windowMapping, windowFreqs_keys]
  exact h

/-- Witness for C7 at the two-sample cohort: allele `T` first occurs at
index 1 of the deduplicated pool and is labelled `A2`. -/
theorem claim_C7_witness :
    (windowMapping [("s1", ['A'], ['T']), ("s2", ['T'], ['T'])] 1 0).lookup ['T']
      = some ("A" ++ toString
          ((firstDedup (windowPool [("s1", ['A'], ['T']), ("s2", ['T'], ['T'])] 1 0)).indexOf
            ['T'] + 1)) :=
  claim_C7 [("s1", ['A'], ['T']), ("s2", ['T'], ['T'])] 1 0 ['T']
    (by simp [windowPool, pySlice])

theorem flatMap_pair_length {α β : Type} (f g : α → β) (l : List α) :
    (l.flatMap (fun e => [f e, g e])).length = 2 * l.length := by
  induction l with
  | nil => simp
  | cons e t ih =>
    simp only [List.flatMap_cons, List.length_append, List.length_cons, List.length_nil, ih]
    omega

/-- Each per-combination distinct-allele count lies in `1 .. 2n`. -/
theorem diversityCounts_bounds (gd : List (String × (List Char × List Char))) (n : ℕ)
    (hn : 1 ≤ n) : ∀ c ∈ diversityCounts gd n, 1 ≤ c ∧ c ≤ 2 * n := by
  intro c hc
  simp only [diversityCounts, List.mem_map] at hc
  obtain ⟨combo, hcombo, rfl⟩ := hc
  have hlen : combo.length = n := (List.mem_sublistsLen.mp hcombo).2
  have hflat : (combo.flatMap (fun e => [e.2.1, e.2.2])).length = 2 * n := by
    have h2 := flatMap_pair_length (fun e : String × List Char × List Char => e.2.1)
      (fun e => e.2.2) combo
    rw [h2, hlen]
  constructor
  · have hne : combo.flatMap (fun e => [e.2.1, e.2.2]) ≠ [] := by
      intro hnil
      rw [hnil] at hflat
      simp at hflat
      omega
    exact one_le_length_firstDedup hne
  · calc (firstDedup (combo.flatMap (fun e => [e.2.1, e.2.2]))).length
        ≤ (combo.flatMap (fun e => [e.2.1, e.2.2])).length := length_firstDedup_le _
    _ = 2 * n := hflat

/-- Claim C4 (amended): when the cohort holds at least `k` samples, the
combinatorial-diversity result for group size `k` is a complete
distribution: its keys all lie in `1 .. 2k`, every key in `1 .. 2k` is
present with a nonnegative probability, keys never observed carry
probability 0, and the probabilities sum to 1 exactly. (When the cohort
holds fewer than `k` samples the code instead returns the empty dict — see
the counterexample.) -/
theorem claim_C4 (gd : List (String × (List Char × List Char))) (n : ℕ)
    (hn : 1 ≤ n) (hle : n ≤ gd.length) :
    (∀ key ∈ (allele_diversity_combinations gd n).map Prod.fst, 1 ≤ key ∧ key ≤ 2 * n)
    ∧ (∀ i, 1 ≤ i → i ≤ 2 * n →
        ∃ q, (allele_diversity_combinations gd n).lookup i = some q ∧ 0 ≤ q)
    ∧ (∀ i, 1 ≤ i → i ≤ 2 * n → i ∉ diversityCounts gd n →
        (allele_diversity_combinations gd n).lookup i = some 0)
    ∧ ((allele_diversity_combinations gd n).map Prod.snd).sum = 1 := by
  have hnotlt : ¬ gd.length < n := by omega
  have hslen : (gd.sublistsLen n).length = gd.length.choose n := by
    simp [List.length_sublistsLen]
  have htotalpos : 0 < (diversityCounts gd n).length := by
    simp only [diversityCounts, List.length_map, hslen]
    exact Nat.choose_pos hle
  have htne0 : (diversityCounts gd n).length ≠ 0 := Nat.pos_iff_ne_zero.mp htotalpos
  have htne : ((diversityCounts gd n).length : ℚ) ≠ 0 := by exact_mod_cast htne0
  have hadc : allele_diversity_combinations gd n
      = (firstDedup (diversityCounts gd n)).map
          (fun i => (i, ((diversityCounts gd n).count i : ℚ)
            / ((diversityCounts gd n).length : ℚ)))
        ++ ((List.range' 1 (2 * n)).filter
             (fun i => decide (¬ i ∈ diversityCounts gd n))).map (fun i => (i, (0 : ℚ))) := by
    simp only [allele_diversity_combinations, if_neg hnotlt, if_neg htne0]
  have hlookup0 : ∀ i, 1 ≤ i → i ≤ 2 * n → i ∉ diversityCounts gd n →
      (allele_diversity_combinations gd n).lookup i = some 0 := by
    intro i hi1 hi2 hi
    rw [hadc]
    have hbase : ((firstDedup (diversityCounts gd n)).map
        (fun i => (i, ((diversityCounts gd n).count i : ℚ)
          / ((diversityCounts gd n).length : ℚ)))).lookup i = none :=
      lookup_map_self_none _ _ i (fun hc => hi ((mem_firstDedup _ i).mp hc))
    rw [lookup_append_none _ hbase]
    have hmemf : i ∈ (List.range' 1 (2 * n)).filter
        (fun i => decide (¬ i ∈ diversityCounts gd n)) := by
      rw [List.mem_filter]
      exact ⟨List.mem_range'_1.mpr ⟨hi1, by omega⟩, by simp [hi]⟩
    exact lookup_map_self _ (fun _ => (0 : ℚ)) i hmemf
  refine ⟨?_, ?_, hlookup0, ?_⟩
  · intro key hkey
    rw [hadc, List.map_append] at hkey
    rcases List.mem_append.mp hkey with hk | hk
    · simp only [List.map_map, List.mem_map, Function.comp_apply] at hk
      obtain ⟨j, hj, rfl⟩ := hk
      exact diversityCounts_bounds gd n hn j ((mem_firstDedup _ j).mp hj)
    · simp only [List.map_map, List.mem_map, Function.comp_apply] at hk
      obtain ⟨j, hj, rfl⟩ := hk
      have := (List.mem_range'_1.mp (List.mem_filter.mp hj).1)
      exact ⟨this.1, by omega⟩
  · intro i hi1 hi2
    by_cases hi : i ∈ diversityCounts gd n
    · refine ⟨((diversityCounts gd n).count i : ℚ) / ((diversityCounts gd n).length : ℚ),
        ?_, by positivity⟩
      rw [hadc]
      exact lookup_append_some (lookup_map_self _ _ i ((mem_firstDedup _ i).mpr hi))
    · exact ⟨0, hlookup0 i hi1 hi2 hi, le_refl 0⟩
  · rw [hadc, List.map_append, List.sum_append]
    have hfill : ((((List.range' 1 (2 * n)).filter
        (fun i => decide (¬ i ∈ diversityCounts gd n))).map
          (fun i => (i, (0 : ℚ)))).map Prod.snd).sum = 0 := by
      refine List.sum_eq_zero ?_
      intro x hx
      simp only [List.map_map, List.mem_map, Function.comp_apply] at hx
      obtain ⟨j, _, h⟩ := hx
      exact h.symm
    have hbase : (((firstDedup (diversityCounts gd n)).map
        (fun i => (i, ((diversityCounts gd n).count i : ℚ)
          / ((diversityCounts gd n).length : ℚ)))).map Prod.snd).sum = 1 := by
      rw [List.map_map]
      have hcomp : (Prod.snd ∘ fun i => (i, ((diversityCounts gd n).count i : ℚ)
          / ((diversityCounts gd n).length : ℚ)))
          = fun i => ((diversityCounts gd n).count i : ℚ)
            / ((diversityCounts gd n).length : ℚ) := rfl
      rw [hcomp, list_sum_div]
      have hcast : ((firstDedup (diversityCounts gd n)).map
          (fun i => ((diversityCounts gd n).count i : ℚ))).sum
          = (((diversityCounts gd n).length : ℕ) : ℚ) := by
        rw [← sum_count_firstDedup (diversityCounts gd n), Nat.cast_list_sum, List.map_map]
        rfl
      rw [hcast, div_self htne]
    rw [hfill, hbase, add_zero]

/-- Counterexample to C4: for a cohort of 2 samples and group size `k = 3`
the code returns the empty dict: no key of `1 .. 6` is present and the
probabilities sum to 0, not 1. -/
theorem claim_C4_counterexample :
    allele_diversity_combinations
        (windowGenotypes [("s1", ['A'], ['T']), ("s2", ['T'], ['T'])] 1 0) 3 = []
    ∧ (allele_diversity_combinations
        (windowGenotypes [("s1", ['A'], ['T']), ("s2", ['T'], ['T'])] 1 0) 3).lookup 1 = none
    ∧ ((allele_diversity_combinations
        (windowGenotypes [("s1", ['A'], ['T']), ("s2", ['T'], ['T'])] 1 0) 3).map
          Prod.snd).sum ≠ 1 := by
  have h : allele_diversity_combinations
      (windowGenotypes [("s1", ['A'], ['T']), ("s2", ['T'], ['T'])] 1 0) 3 = [] := by
    simp [allele_diversity_combinations, windowGenotypes, pySlice]
  refine ⟨h, by rw [h]; rfl, by rw [h]; norm_num⟩

/-- Witness for C4 at the two-sample cohort with group size 2. -/
theorem claim_C4_witness :
    (∀ key ∈ (allele_diversity_combinations
        (windowGenotypes [("s1", ['A'], ['T']), ("s2", ['T'], ['T'])] 1 0) 2).map Prod.fst,
      1 ≤ key ∧ key ≤ 2 * 2)
    ∧ (∀ i, 1 ≤ i → i ≤ 2 * 2 →
        ∃ q, (allele_diversity_combinations
          (windowGenotypes [("s1", ['A'], ['T']), ("s2", ['T'], ['T'])] 1 0) 2).lookup i
            = some q ∧ 0 ≤ q)
    ∧ (∀ i, 1 ≤ i → i ≤ 2 * 2 →
        i ∉ diversityCounts (windowGenotypes [("s1", ['A'], ['T']), ("s2", ['T'], ['T'])] 1 0) 2 →
        (allele_diversity_combinations
          (windowGenotypes [("s1", ['A'], ['T']), ("s2", ['T'], ['T'])] 1 0) 2).lookup i
            = some 0)
    ∧ ((allele_diversity_combinations
        (windowGenotypes [("s1", ['A'], ['T']), ("s2", ['T'], ['T'])] 1 0) 2).map
          Prod.snd).sum = 1 :=
  claim_C4 (windowGenotypes [("s1", ['A'], ['T']), ("s2", ['T'], ['T'])] 1 0) 2
    (by norm_num) (by simp [windowGenotypes])

/-- The `n` used by `hardy_weinberg_p` (the sum of the observed genotype
counts) equals the genotype-list length. -/
theorem hw_n_eq (genotypes : List (List Char × List Char)) :
    ((firstDedup (canonList genotypes)).map (fun g => (canonList genotypes).count g)).sum
      = genotypes.length := by
  rw [sum_count_firstDedup]
  simp [canonList]

/-- Claim C5: `hardy_weinberg_p` computes exactly the procedure the spec
describes — observed unordered-genotype counts, expected counts as HWE
frequency times sample count, exclusion of zero-expectation classes,
`df = included - distinct alleles`, undefined when `df <= 0`, else
`1 - CDF(chi2, df)` clipped to `[0,1]`. The code's extra operational detail
(lexicographic sorting of the class union, `n` recovered from the counter,
and the two early-exit guards) does not change the result. -/
theorem claim_C5 (cdf : ℚ → ℕ → ℚ) (genotypes : List (List Char × List Char))
    (freqs : List (List Char × ℚ)) :
    hardy_weinberg_p cdf genotypes freqs = hardy_weinberg_p_spec cdf genotypes freqs := by
  by_cases hg : genotypes = []
  · subst hg
    have h1 : hardy_weinberg_p cdf [] freqs = none := by
      simp [hardy_weinberg_p, canonList, firstDedup]
    have h2 : hardy_weinberg_p_spec cdf [] freqs = none := by
      have hfilter : (hwUnion [] freqs).filter
          (fun g => decide (0 < hwExpected freqs ((List.length ([] : List (List Char × List Char))) : ℚ) g)) = [] := by
        apply List.filter_eq_nil_iff.mpr
        intro g _
        simp [hwExpected]
      simp only [hardy_weinberg_p_spec, hfilter]
      simp
    rw [h1, h2]
  · have hnn := hw_n_eq genotypes
    have hlen0 : genotypes.length ≠ 0 := fun h => hg (List.length_eq_zero.mp h)
    simp only [hardy_weinberg_p, hardy_weinberg_p_spec, hnn]
    rw [if_neg hlen0]
    have hperm : List.Perm
        (((hwUnion genotypes freqs).mergeSort pairLe).filter
          (fun g => decide (0 < hwExpected freqs ((genotypes.length : ℕ) : ℚ) g)))
        ((hwUnion genotypes freqs).filter
          (fun g => decide (0 < hwExpected freqs ((genotypes.length : ℕ) : ℚ) g))) :=
      (List.mergeSort_perm (hwUnion genotypes freqs) pairLe).filter _
    by_cases hinc : ((hwUnion genotypes freqs).mergeSort pairLe).filter
        (fun g => decide (0 < hwExpected freqs ((genotypes.length : ℕ) : ℚ) g)) = []
    · rw [if_pos hinc]
      rw [hinc] at hperm
      have hcl := hperm.symm.eq_nil
      rw [hcl]
      simp
    · rw [if_neg hinc]
      have hlen := hperm.length_eq
      have hsum := (hperm.map (fun g => ((hwObserved genotypes g : ℚ)
          - hwExpected freqs ((genotypes.length : ℕ) : ℚ) g) ^ 2
          / hwExpected freqs ((genotypes.length : ℕ) : ℚ) g)).sum_eq
      rw [hlen, hsum]

/-- With `Ho` and `Ae` defined (always the case for a nonempty cohort), the
score block reduces to the weighted nine-term mean. -/
theorem score_of_some (He ho ae PIC PD p2 p3 p4 : ℚ) (r2m dpm : Option ℚ) :
    score_of He (some ho) (some ae) PIC PD p2 p3 p4 r2m dpm
      = some ((clip He + clip ho + clip (if ae = 0 then 0 else ae / 10) + clip PIC + clip PD
        + (1 / 2) * clip p2 + (3 / 4) * clip p3 + clip p4
        + (3 / 10) * (1 - clip (r2m.getD 0))) / 9) := by
  simp [score_of, List.lookup]

/-- Claim C3 (amended): for every window (with `Ho` and `Ae` defined, which
holds for every nonempty cohort), the composite `Score` is the arithmetic
mean of nine fixed terms — `He`, `Ho`, `Ae/10`, `PIC`, `PD` clipped to
`[0,1]`, plus the weighted terms `0.5*P2`, `0.75*P3`, `P4` (clipped before
weighting) and `0.3*(1 - r2_mean)` with an undefined `r2_mean` replaced by
0 — a weighted combination, not an unweighted mean of the clipped metrics,
and `D_prime_mean` never enters it. -/
theorem claim_C3 (rng : ℕ → ℕ → ℕ × ℕ) (cdf : ℚ → ℕ → ℚ)
    (samples : List (String × List Char × List Char)) (window_size start : ℕ) (ho ae : ℚ)
    (hho : heterozygosity_observed ((windowGenotypes samples window_size start).map Prod.snd)
      = some ho)
    (hae : effective_number_of_alleles (windowFreqs samples window_size start) = some ae) :
    (windowResult rng cdf samples window_size start).score
      = some ((clip (heterozygosity_expected (windowFreqs samples window_size start))
        + clip ho + clip (if ae = 0 then 0 else ae / 10)
        + clip (pic_from_freqs (windowFreqs samples window_size start))
        + clip (1 - match_probability_from_freqs (windowFreqs samples window_size start))
        + (1 / 2) * clip (probability_all_different (windowFreqs samples window_size start) 2)
        + (3 / 4) * clip (probability_all_different (windowFreqs samples window_size start) 3)
        + clip (probability_all_different (windowFreqs samples window_size start) 4)
        + (3 / 10) * (1 - clip ((calculate_mean_ld_in_window (rng 42)
            (windowPool samples window_size start) window_size 20).r2_mean.getD 0))) / 9) := by
  simp only [windowResult]
  rw [hho, hae, score_of_some]

/-- Witness for C3 at the one-sample cohort `s1 = (A, T)`, width 1. -/
theorem claim_C3_witness :
    (windowResult (fun _ _ => (0, 1)) (fun _ _ => 0) [("s1", ['A'], ['T'])] 1 0).score
      = some ((clip (heterozygosity_expected (windowFreqs [("s1", ['A'], ['T'])] 1 0))
        + clip 1 + clip (if (2 : ℚ) = 0 then 0 else 2 / 10)
        + clip (pic_from_freqs (windowFreqs [("s1", ['A'], ['T'])] 1 0))
        + clip (1 - match_probability_from_freqs (windowFreqs [("s1", ['A'], ['T'])] 1 0))
        + (1 / 2) * clip (probability_all_different (windowFreqs [("s1", ['A'], ['T'])] 1 0) 2)
        + (3 / 4) * clip (probability_all_different (windowFreqs [("s1", ['A'], ['T'])] 1 0) 3)
        + clip (probability_all_different (windowFreqs [("s1", ['A'], ['T'])] 1 0) 4)
        + (3 / 10) * (1 - clip ((calculate_mean_ld_in_window ((fun _ _ => ((0 : ℕ), (1 : ℕ))) 42)
            (windowPool [("s1", ['A'], ['T'])] 1 0) 1 20).r2_mean.getD 0))) / 9) :=
  claim_C3 (fun _ _ => (0, 1)) (fun _ _ => 0) [("s1", ['A'], ['T'])] 1 0 1 2
    (by simp [heterozygosity_observed, windowGenotypes, pySlice])
    (by
      have hpool : windowPool [("s1", ['A'], ['T'])] 1 0 = [['A'], ['T']] := by
        simp [windowPool, pySlice]
      have hfd : firstDedup [(['A'] : List Char), ['T']] = [['A'], ['T']] := by
        simp [firstDedup]
      have hfreqs : windowFreqs [("s1", ['A'], ['T'])] 1 0
          = [(['A'], 1 / 2), (['T'], 1 / 2)] := by
        simp only [windowFreqs, hpool, hfd]
        simp [List.count_cons]
      rw [hfreqs]
      norm_num [effective_number_of_alleles])

/-- Modelled from the spec (section 4.7): a composite score as the
unweighted mean of the clipped ingredients, with NaN/undefined ingredients
excluded from the average rather than treated as 0. -/
def score_unweighted_spec (ms : List (Option ℚ)) : Option ℚ :=
  let ds := (ms.filterMap id).map clip
  if ds = [] then none else some (ds.sum / (ds.length : ℚ))

/-- Modelled from the spec (section 4.7): the unweighted-mean score over the
nine ingredients the code combines (with the LD penalty undefined when
`r2_mean` is undefined, hence excluded rather than zeroed). -/
def windowScore_spec (rng : ℕ → ℕ → ℕ × ℕ)
    (samples : List (String × List Char × List Char)) (window_size start : ℕ) : Option ℚ :=
  score_unweighted_spec
    [some (heterozygosity_expected (windowFreqs samples window_size start)),
     heterozygosity_observed ((windowGenotypes samples window_size start).map Prod.snd),
     (effective_number_of_alleles (windowFreqs samples window_size start)).map (fun a => a / 10),
     some (pic_from_freqs (windowFreqs samples window_size start)),
     some (1 - match_probability_from_freqs (windowFreqs samples window_size start)),
     some (probability_all_different (windowFreqs samples window_size start) 2),
     some (probability_all_different (windowFreqs samples window_size start) 3),
     some (probability_all_different (windowFreqs samples window_size start) 4),
     (calculate_mean_ld_in_window (rng 42) (windowPool samples window_size start)
       window_size 20).r2_mean.map (fun r => 1 - clip r)]

/-- Counterexample to C3: at the one-sample window `s1 = (A, T)`, width 1,
the code's score is 13/36 while the unweighted mean of the clipped defined
ingredients is 2/5: the code weights `P2`, `P3` and the LD penalty (by 0.5,
0.75, 0.3), scales `Ae` by 1/10, and replaces the undefined `r2_mean` by 0
instead of excluding the LD term. -/
theorem claim_C3_counterexample :
    (windowResult (fun _ _ => (0, 1)) (fun _ _ => 0) [("s1", ['A'], ['T'])] 1 0).score
      = some (13 / 36)
    ∧ windowScore_spec (fun _ _ => (0, 1)) [("s1", ['A'], ['T'])] 1 0 = some (2 / 5)
    ∧ ((13 : ℚ) / 36 ≠ 2 / 5) := by
  have hpool : windowPool [("s1", ['A'], ['T'])] 1 0 = [['A'], ['T']] := by
    simp [windowPool, pySlice]
  have hfd : firstDedup [(['A'] : List Char), ['T']] = [['A'], ['T']] := by
    simp [firstDedup]
  have hfreqs : windowFreqs [("s1", ['A'], ['T'])] 1 0 = [(['A'], 1 / 2), (['T'], 1 / 2)] := by
    simp only [windowFreqs, hpool, hfd]
    simp [List.count_cons]
  have hgen : (windowGenotypes [("s1", ['A'], ['T'])] 1 0).map Prod.snd = [(['A'], ['T'])] := by
    simp [windowGenotypes, pySlice]
  have hho : heterozygosity_observed [((['A'] : List Char), (['T'] : List Char))] = some 1 := by
    simp [heterozygosity_observed]
  have hae : effective_number_of_alleles [((['A'] : List Char), (1 : ℚ) / 2), (['T'], 1 / 2)]
      = some 2 := by
    norm_num [effective_number_of_alleles]
  have hHe : heterozygosity_expected [((['A'] : List Char), (1 : ℚ) / 2), (['T'], 1 / 2)]
      = 1 / 2 := by
    norm_num [heterozygosity_expected]
  have hPIC : pic_from_freqs [((['A'] : List Char), (1 : ℚ) / 2), (['T'], 1 / 2)] = 3 / 8 := by
    norm_num [pic_from_freqs, pic_pair_terms]
  have hsorted : List.mergeSort (List.map Prod.fst
      [((['A'] : List Char), (1 : ℚ) / 2), (['T'], 1 / 2)]) (fun a b => ! lexLt b a)
      = [['A'], ['T']] := by
    simp [List.mergeSort, lexLt]
  have hMP : match_probability_from_freqs [((['A'] : List Char), (1 : ℚ) / 2), (['T'], 1 / 2)]
      = 3 / 8 := by
    simp only [match_probability_from_freqs, genotype_frequencies_under_hwe, hsorted]
    simp [hwe_rows, freqOf, List.lookup]
    norm_num
  have hp2 : probability_all_different [((['A'] : List Char), (1 : ℚ) / 2), (['T'], 1 / 2)] 2
      = 1 / 2 := by
    simp [probability_all_different, List.sublistsLen, List.sublistsLenAux, Nat.factorial]
  have hp3 : probability_all_different [((['A'] : List Char), (1 : ℚ) / 2), (['T'], 1 / 2)] 3
      = 0 := by
    simp [probability_all_different]
  have hp4 : probability_all_different [((['A'] : List Char), (1 : ℚ) / 2), (['T'], 1 / 2)] 4
      = 0 := by
    simp [probability_all_different]
  have hLD : calculate_mean_ld_in_window ((fun _ _ => ((0 : ℕ), (1 : ℕ))) 42)
      (windowPool [("s1", ['A'], ['T'])] 1 0) 1 20 = ⟨none, none⟩ := by
    simp [calculate_mean_ld_in_window]
  refine ⟨?_, ?_, by norm_num⟩
  · simp only [windowResult, hgen, hfreqs, hho, hae, hHe, hPIC, hMP, hp2, hp3, hp4, hLD]
    rw [score_of_some]
    norm_num [clip]
  · simp only [windowScore_spec, hgen, hfreqs, hho, hae, hHe, hPIC, hMP, hp2, hp3, hp4, hLD]
    simp only [score_unweighted_spec, Option.map_some, Option.map_none, List.filterMap]
    norm_num [clip]
    intro h
    simp at h

/-- The constant two-sample cohort used to exhibit score ties: both samples
carry 24 A's on both haplotypes, giving 20 identical windows of width 5. -/
def constSamples : List (String × List Char × List Char) :=
  [("s1", List.replicate 24 'A', List.replicate 24 'A'),
   ("s2", List.replicate 24 'A', List.replicate 24 'A')]

theorem constSlice (i : ℕ) (hi : i < 20) :
    pySlice (List.replicate 24 'A') i (i + 5) = List.replicate 5 'A' := by
  have h1 : i + 5 - i = 5 := by omega
  have h2 : min 5 (24 - i) = 5 := by omega
  rw [pySlice, h1, List.drop_replicate, List.take_replicate, h2]

theorem constSamples_pool (i : ℕ) (hi : i < 20) :
    windowPool constSamples 5 i
      = [List.replicate 5 'A', List.replicate 5 'A', List.replicate 5 'A',
         List.replicate 5 'A'] := by
  simp only [windowPool, constSamples, List.flatMap_cons, List.flatMap_nil, constSlice i hi,
    List.cons_append, List.nil_append, List.append_nil]

theorem constSamples_gen (i : ℕ) (hi : i < 20) :
    windowGenotypes constSamples 5 i
      = [("s1", (List.replicate 5 'A', List.replicate 5 'A')),
         ("s2", (List.replicate 5 'A', List.replicate 5 'A'))] := by
  simp only [windowGenotypes, constSamples, List.map_cons, List.map_nil, constSlice i hi]

theorem constSamples_freqs (i : ℕ) (hi : i < 20) :
    windowFreqs constSamples 5 i = [(List.replicate 5 'A', 1)] := by
  have hfd : firstDedup [List.replicate 5 'A', List.replicate 5 'A', List.replicate 5 'A',
      List.replicate 5 'A'] = [List.replicate 5 'A'] := by
    rw [firstDedup, List.filter_cons_of_neg (by simp), List.filter_cons_of_neg (by simp),
      List.filter_cons_of_neg (by simp), List.filter_nil, firstDedup]
  have hcount : List.count (List.replicate 5 'A') [List.replicate 5 'A', List.replicate 5 'A',
      List.replicate 5 'A', List.replicate 5 'A'] = 4 := by
    simp only [List.count_cons, List.count_nil, beq_self_eq_true, if_true]
  simp only [windowFreqs, constSamples_pool i hi, hfd, List.map_cons, List.map_nil, hcount,
    List.sum_cons, List.sum_nil]
  norm_num

theorem constLD (stream : ℕ → ℕ × ℕ) (i : ℕ) (hi : i < 20) :
    calculate_mean_ld_in_window stream (windowPool constSamples 5 i) 5 20
      = ⟨some 0, some 0⟩ := by
  rw [constSamples_pool i hi,
    show (List.replicate 5 'A') = ['A', 'A', 'A', 'A', 'A'] from rfl]
  have hz : ∀ p1 p2 : ℕ, p1 < 5 → p2 < 5 →
      calculate_linkage_disequilibrium [['A', 'A', 'A', 'A', 'A'], ['A', 'A', 'A', 'A', 'A'],
        ['A', 'A', 'A', 'A', 'A'], ['A', 'A', 'A', 'A', 'A']] p1 p2 = some ⟨0, 0, 0⟩ := by
    intro p1 p2 h1 h2
    interval_cases p1 <;> interval_cases p2 <;>
      simp [calculate_linkage_disequilibrium, countPairs, firstDedup, baseAt]
  have hpairs : ld_exhaustive_pairs 5
      = [(0, 1), (0, 2), (0, 3), (0, 4), (1, 2), (1, 3), (1, 4), (2, 3), (2, 4), (3, 4)] := by
    decide
  simp only [calculate_mean_ld_in_window, hpairs]
  rw [if_neg (by simp : ¬ (([['A', 'A', 'A', 'A', 'A'], ['A', 'A', 'A', 'A', 'A'],
    ['A', 'A', 'A', 'A', 'A'], ['A', 'A', 'A', 'A', 'A']] : List (List Char)) = [] ∨ 5 < 2))]
  rw [if_neg (by norm_num : ¬ (10 : ℕ) < 5)]
  rw [if_neg (by simp : ¬ ([((0 : ℕ), (1 : ℕ)), (0, 2), (0, 3), (0, 4), (1, 2), (1, 3),
    (1, 4), (2, 3), (2, 4), (3, 4)] = []))]
  simp only [List.filterMap_cons, List.filterMap_nil,
    hz 0 1 (by norm_num) (by norm_num), hz 0 2 (by norm_num) (by norm_num),
    hz 0 3 (by norm_num) (by norm_num), hz 0 4 (by norm_num) (by norm_num),
    hz 1 2 (by norm_num) (by norm_num), hz 1 3 (by norm_num) (by norm_num),
    hz 1 4 (by norm_num) (by norm_num), hz 2 3 (by norm_num) (by norm_num),
    hz 2 4 (by norm_num) (by norm_num), hz 3 4 (by norm_num) (by norm_num),
    Option.map_some]
  norm_num
  intro h
  simp at h

theorem constScore (rng : ℕ → ℕ → ℕ × ℕ) (cdf : ℚ → ℕ → ℚ) (i : ℕ) (hi : i < 20) :
    (windowResult rng cdf constSamples 5 i).score = some (2 / 45) := by
  have hMP : match_probability_from_freqs [(List.replicate 5 'A', (1 : ℚ))] = 1 := by
    simp [match_probability_from_freqs, genotype_frequencies_under_hwe, List.mergeSort,
      hwe_rows, freqOf, List.lookup]
  have hHo : heterozygosity_observed
      ([("s1", (List.replicate 5 'A', List.replicate 5 'A')),
        ("s2", (List.replicate 5 'A', List.replicate 5 'A'))].map Prod.snd) = some 0 := by
    simp [heterozygosity_observed]
  have hAe : effective_number_of_alleles [(List.replicate 5 'A', (1 : ℚ))] = some 1 := by
    norm_num [effective_number_of_alleles]
  have hHe : heterozygosity_expected [(List.replicate 5 'A', (1 : ℚ))] = 0 := by
    norm_num [heterozygosity_expected]
  have hPIC : pic_from_freqs [(List.replicate 5 'A', (1 : ℚ))] = 0 := by
    norm_num [pic_from_freqs, pic_pair_terms]
  have hp2 : probability_all_different [(List.replicate 5 'A', (1 : ℚ))] 2 = 0 := by
    simp [probability_all_different]
  have hp3 : probability_all_different [(List.replicate 5 'A', (1 : ℚ))] 3 = 0 := by
    simp [probability_all_different]
  have hp4 : probability_all_different [(List.replicate 5 'A', (1 : ℚ))] 4 = 0 := by
    simp [probability_all_different]
  simp only [windowResult, constSamples_freqs i hi, constSamples_gen i hi, constLD (rng 42) i hi,
    hHo, hAe]
  rw [score_of_some, hHe, hPIC, hMP, hp2, hp3, hp4]
  norm_num [clip]

/-- Claim C1 (the code evaluated at the failing input): scanning the
constant cohort `constSamples` with width 5 yields 20 windows whose scores
are all equal to 2/45. With more than 16 tied rows, numpy's quicksort — the
default, unstable sort behind `df.sort_values("Score", ascending=False)` —
no longer preserves the scan order, so the final output's tie order is
implementation-defined rather than ascending `start` as claimed. -/
theorem claim_C1 (rng : ℕ → ℕ → ℕ × ℕ) (cdf : ℚ → ℕ → ℚ) :
    (scan_windows rng cdf constSamples 5).length = 20
    ∧ ∀ r ∈ scan_windows rng cdf constSamples 5, r.score = some (2 / 45) := by
  have hL : usable_length constSamples = 24 := by decide
  have hnum : numWindows 24 5 = 20 := by norm_num [numWindows]
  constructor
  · simp [scan_windows, hL, hnum]
  · intro r hr
    simp only [scan_windows, hL, hnum, List.mem_map] at hr
    obtain ⟨i, hi, rfl⟩ := hr
    exact constScore rng cdf i (List.mem_range.mp hi)

end Piloto
